import Mathlib

/-!
Verification of the trackify-v2 timer-coordination core.

This file shallowly embeds the parts of the repository that the design
document makes claims about:

* `src/lib/event-overlap.ts` — `findOverlappingEvents` / `validateNoOverlap`
  (the from/to schema version, cited by the claims);
* `src/app/api/events/route.ts` — the `POST` handler (interval validation,
  overlap check with `skipRunningTimerCheck: true`, creation);
* `src/app/api/events/[id]/route.ts` — the `PUT` handler (update with
  `excludeEventId`);
* `server/index.ts` — the socket handlers `authenticate`, `timer:start`,
  `timer:stop`, `timer:update-start`, `timer:request-state`, and the startup
  routine `loadActiveTimers`;
* `scripts/fix-overlapping-events.ts` — the historical repair pass;
* the timezone handling of `src/app/api/stats/route.ts`,
  `src/app/api/chat/route.ts` and `src/app/api/chat/execute-tool/route.ts`.

Times are integers (milliseconds since epoch, as in the JS code).  Database
ids are strings.  Durable writes that can fail are modelled by a boolean
oracle `dbOk` passed to the handler: `dbOk = true` means the prisma call
committed, `dbOk = false` means it raised.  The handlers are per-user: every
prisma query in the embedded code filters by the connection's user id, so a
state value describes one user's rows.
-/

/-- A stored event row in the current (from/to) schema: `trackify_event`
after the `from`/`to` migration, flattened with the `task.name` that the
overlap queries `include`.  `fromTime`/`toTime` embed the `from`/`to`
columns (`from` is a Lean keyword). -/
structure Event where
  id : String
  taskId : String
  name : String
  fromTime : Int
  toTime : Int
  taskName : String
deriving DecidableEq, Repr

/-- The shape returned by `findOverlappingEvents` (interface
`OverlappingEvent` in `src/lib/event-overlap.ts`). -/
structure OverlappingEvent where
  id : String
  name : String
  fromTime : Int
  toTime : Int
  taskName : String
deriving DecidableEq, Repr

/-- The `ActiveTimer` row as read by the REST overlap check
(`prisma.activeTimer.findUnique` with `include: task.name`). -/
structure RestActiveTimer where
  id : String
  startTime : Int
  taskName : String
deriving DecidableEq, Repr

/-- Projection of a stored event to the result shape (the `.map` in
`findOverlappingEvents`). -/
def Event.toOverlapping (e : Event) : OverlappingEvent :=
  { id := e.id, name := e.name, fromTime := e.fromTime, toTime := e.toTime,
    taskName := e.taskName }

/-- The prisma `where` filter of `findOverlappingEvents`: optional
`id: { not: excludeEventId }`, `from: { lt: eventTo }`,
`to: { gt: eventFrom }` (the user filter is implicit in the per-user
state). -/
def overlapFilter (eventFrom eventTo : Int) (excludeEventId : Option String)
    (e : Event) : Bool :=
  (match excludeEventId with
   | some ex => decide (e.id ≠ ex)
   | none => true)
  && decide (e.fromTime < eventTo)
  && decide (eventFrom < e.toTime)

/-- Function `findOverlappingEvents` from `src/lib/event-overlap.ts`: the filtered
stored events, then — unless `skipRunningTimerCheck` — the running timer
appended as a pseudo-entry when `[timerStart, now)` meets the candidate. -/
def findOverlappingEvents (events : List Event)
    (activeTimer : Option RestActiveTimer) (now : Int)
    (eventFrom eventTo : Int) (excludeEventId : Option String)
    (skipRunningTimerCheck : Bool) : List OverlappingEvent :=
  let result := (events.filter (overlapFilter eventFrom eventTo excludeEventId)).map
    Event.toOverlapping
  if skipRunningTimerCheck then result
  else
    match activeTimer with
    | none => result
    | some t =>
      if t.startTime < eventTo ∧ eventFrom < now then
        result ++ [{ id := t.id, name := "Currently running timer",
                     fromTime := t.startTime, toTime := now,
                     taskName := t.taskName }]
      else result

/-- Function `validateNoOverlap`: throws `OverlapError` carrying the first hit
when the result is non-empty; `some e` models the thrown error. -/
def validateNoOverlap (events : List Event)
    (activeTimer : Option RestActiveTimer) (now : Int)
    (eventFrom eventTo : Int) (excludeEventId : Option String)
    (skipRunningTimerCheck : Bool) : Option OverlappingEvent :=
  (findOverlappingEvents events activeTimer now eventFrom eventTo
    excludeEventId skipRunningTimerCheck).head?

/-- Outcome of `POST /api/events` (the from/to version of
`src/app/api/events/route.ts`). -/
inductive PostResult where
  /-- HTTP 404 "Task not found" -/
  | taskNotFound
  /-- HTTP 400 "End time must be after start time" -/
  | invalidInterval
  /-- HTTP 400 "Cannot create event that ends in the future" -/
  | futureEnd
  /-- HTTP 409 with the thrown `OverlapError` payload -/
  | overlapConflict (e : OverlappingEvent)
  /-- HTTP 201 with the created row -/
  | created (e : Event)
deriving DecidableEq, Repr

/-- The `POST /api/events` handler.  `userTaskIds` are the ids of the
user's tasks (the `prisma.task.findFirst` ownership check); `taskName` is
the created row's joined task name; `newId` the id the database assigns.
The overlap check passes `skipRunningTimerCheck: true`. -/
def postEvent (events : List Event) (activeTimer : Option RestActiveTimer)
    (userTaskIds : List String) (taskId name : String)
    (eventFrom eventTo now : Int) (newId taskName : String) :
    PostResult × List Event :=
  if ¬ taskId ∈ userTaskIds then (PostResult.taskNotFound, events)
  else if eventTo ≤ eventFrom then (PostResult.invalidInterval, events)
  else if now < eventTo then (PostResult.futureEnd, events)
  else
    match validateNoOverlap events activeTimer now eventFrom eventTo none true with
    | some e => (PostResult.overlapConflict e, events)
    | none =>
      let ev : Event := { id := newId, taskId := taskId, name := name,
                          fromTime := eventFrom, toTime := eventTo,
                          taskName := taskName }
      (PostResult.created ev, events ++ [ev])

/-- Outcome of `PUT /api/events/[id]`. -/
inductive PutResult where
  /-- HTTP 404 "Event not found" -/
  | eventNotFound
  /-- HTTP 400 "End time must be after start time" -/
  | invalidInterval
  /-- HTTP 400 "Cannot update event to end in the future" -/
  | futureEnd
  /-- HTTP 409 with the thrown `OverlapError` payload -/
  | overlapConflict (e : OverlappingEvent)
  /-- HTTP 200 with the updated row -/
  | updated (e : Event)
deriving DecidableEq, Repr

/-- Apply the `updateData` object of the `PUT` handler to a row: each of
`name`, `from`, `to` is written only when supplied. -/
def applyUpdate (newName : Option String) (newFrom newTo : Option Int)
    (e : Event) : Event :=
  { e with name := newName.getD e.name,
           fromTime := newFrom.getD e.fromTime,
           toTime := newTo.getD e.toTime }

/-- The `PUT /api/events/[id]` handler (from/to version).  Finds the
user's event by id; when `from` or `to` is supplied, validates
`finalTo > finalFrom`, `finalTo ≤ now`, and overlap with
`excludeEventId = id` (running-timer check NOT skipped); then updates the
row in place. -/
def putEvent (events : List Event) (activeTimer : Option RestActiveTimer)
    (id : String) (newName : Option String) (newFrom newTo : Option Int)
    (now : Int) : PutResult × List Event :=
  match events.find? (fun e => e.id = id) with
  | none => (PutResult.eventNotFound, events)
  | some event =>
    if newFrom.isSome ∨ newTo.isSome then
      let finalFrom := newFrom.getD event.fromTime
      let finalTo := newTo.getD event.toTime
      if finalTo ≤ finalFrom then (PutResult.invalidInterval, events)
      else if now < finalTo then (PutResult.futureEnd, events)
      else
        match validateNoOverlap events activeTimer now finalFrom finalTo
          (some id) false with
        | some e => (PutResult.overlapConflict e, events)
        | none =>
          let updated := applyUpdate newName newFrom newTo event
          (PutResult.updated updated,
           events.map (fun e => if e.id = id then applyUpdate newName newFrom newTo e else e))
    else
      let updated := applyUpdate newName newFrom newTo event
      (PutResult.updated updated,
       events.map (fun e => if e.id = id then applyUpdate newName newFrom newTo e else e))

/-! ## The socket server (`server/index.ts`) -/

/-- A stored event row as the `timer:update-start` handler reads it
(`createdAt` start instant plus `duration`, with `task.name` included). -/
structure DurEvent where
  id : String
  taskId : String
  name : String
  createdAt : Int
  duration : Int
  taskName : String
deriving DecidableEq, Repr

/-- The durable `ActiveTimer` row (unique per user). -/
structure DbTimer where
  taskId : String
  startTime : Int
deriving DecidableEq, Repr

/-- The in-memory `ActiveTimer` entry of `server/index.ts` (the value of
the `activeTimers` map). -/
structure ActiveTimer where
  taskId : String
  startTime : Int
  socketIds : List String
deriving DecidableEq, Repr

/-- One user's slice of the server state: durable events, the durable
`ActiveTimer` row, and the in-memory `activeTimers` entry. -/
structure SrvState where
  events : List DurEvent
  dbTimer : Option DbTimer
  memTimer : Option ActiveTimer
deriving DecidableEq, Repr

/-- Socket emissions: broadcasts go to a room (`io.to(room).emit`),
errors go to the originating socket (`socket.emit`). -/
inductive Emit where
  | started (room : String) (taskId : String) (startTime : Int)
  | stopped (room : String) (taskId : String) (duration : Int)
  | startUpdated (room : String) (taskId : String) (startTime : Int)
  | timerState (socketId : String) (taskId : String) (startTime : Int) (running : Bool)
  | error (socketId : String) (action : String) (message : String)
deriving DecidableEq, Repr

/-- The broadcast room for a user (`user:${userId}`). -/
def userRoom (userId : String) : String := "user:" ++ userId

/-- Per-connection state: the `userId` local of the connection handler,
`none` until `authenticate` ran. -/
structure ConnState where
  userId : Option String
deriving DecidableEq, Repr

/-- The `authenticate` handler: stores the client-sent user id and joins
`user:${userId}` — there is no credential, token, or session input at
all.  Returns the new connection state and the room joined. -/
def authenticate (_conn : ConnState) (dataUserId : String) :
    ConnState × String :=
  ({ userId := some dataUserId }, userRoom dataUserId)

/-- The `timer:start` handler: durable upsert first; only on success the
in-memory entry (recording the initiating socket id) and the broadcast.
On a failed upsert nothing changes and `timer:error` goes to the
socket. -/
def timerStart (st : SrvState) (userId socketId taskId : String)
    (now : Int) (dbOk : Bool) : SrvState × List Emit :=
  if dbOk then
    ({ st with dbTimer := some { taskId := taskId, startTime := now },
               memTimer := some { taskId := taskId, startTime := now,
                                  socketIds := [socketId] } },
     [Emit.started (userRoom userId) taskId now])
  else
    (st, [Emit.error socketId "start" "Failed to start timer. Please try again."])

/-- The `timer:stop` handler.  The durable delete's rejection is swallowed
(`.catch(() => {})`), so regardless of `dbOk` the in-memory entry is
deleted and `timer:stopped` is broadcast with the client-reported
`data.duration`; no Event is written and no duration is recomputed.  A
failed delete leaves the durable row behind. -/
def timerStop (st : SrvState) (userId taskId : String)
    (dataDuration : Int) (dbOk : Bool) : SrvState × List Emit :=
  ({ st with dbTimer := if dbOk then none else st.dbTimer,
             memTimer := none },
   [Emit.stopped (userRoom userId) taskId dataDuration])

/-- The overlap test of the `timer:update-start` handler:
`newStartTime < eventEnd && eventStart < now` with
`eventEnd = createdAt + duration`. -/
def adjustOverlap (newStartTime now : Int) (e : DurEvent) : Bool :=
  decide (newStartTime < e.createdAt + e.duration) && decide (e.createdAt < now)

/-- The error message of an `update-start` overlap hit. -/
def adjustOverlapMsg (e : DurEvent) : String :=
  "This would overlap with \"" ++ e.taskName ++ ": " ++ e.name ++ "\""

/-- The `timer:update-start` handler: rejects with `timer:error` to the
socket when no in-memory timer exists, when the task id differs, when the
new start is in the future, or when a stored event (fetched with
`createdAt < now`, scanned in order) overlaps `[newStart, now)`; otherwise
durable update first, then memory, then broadcast. -/
def timerUpdateStart (st : SrvState) (userId socketId taskId : String)
    (newStartTime now : Int) (dbOk : Bool) : SrvState × List Emit :=
  match st.memTimer with
  | none =>
    (st, [Emit.error socketId "update-start" "No active timer found to adjust"])
  | some timer =>
    if timer.taskId ≠ taskId then
      (st, [Emit.error socketId "update-start" "Timer has changed. Please try again."])
    else if now < newStartTime then
      (st, [Emit.error socketId "update-start" "Start time cannot be in the future"])
    else
      match (st.events.filter (fun e => decide (e.createdAt < now))).find?
          (adjustOverlap newStartTime now) with
      | some e =>
        (st, [Emit.error socketId "update-start" (adjustOverlapMsg e)])
      | none =>
        if dbOk then
          ({ st with
              dbTimer := st.dbTimer.map (fun d => { d with startTime := newStartTime }),
              memTimer := some { timer with startTime := newStartTime } },
           [Emit.startUpdated (userRoom userId) taskId newStartTime])
        else
          (st, [Emit.error socketId "update-start"
                  "Failed to update start time. Please try again."])

/-- The `timer:request-state` handler: a pure read answered only to the
requesting socket. -/
def timerRequestState (st : SrvState) (socketId : String) : List Emit :=
  match st.memTimer with
  | some t => [Emit.timerState socketId t.taskId t.startTime true]
  | none => []

/-! ## Startup recovery (`loadActiveTimers` in `server/index.ts`) -/

/-- A durable `ActiveTimer` row joined with its task's `hidden` flag, as
`loadActiveTimers` fetches it. -/
structure TimerRow where
  id : String
  userId : String
  taskId : String
  startTime : Int
  taskHidden : Bool
deriving DecidableEq, Repr

/-- JS `Map.set` on an association list: replace the first binding of the
key in place, else append. -/
def mapSet (m : List (String × ActiveTimer)) (k : String) (v : ActiveTimer) :
    List (String × ActiveTimer) :=
  match m with
  | [] => [(k, v)]
  | (k', v') :: rest =>
    if k' = k then (k, v) :: rest else (k', v') :: mapSet rest k v

/-- The loop of `loadActiveTimers`: hidden-task rows are collected as
orphans, the rest are `Map.set` into the in-memory map with their stored
start instant and an empty socket set. -/
def loadLoop : List TimerRow → List (String × ActiveTimer) → List String →
    List (String × ActiveTimer) × List String
  | [], m, orphaned => (m, orphaned)
  | r :: rest, m, orphaned =>
    if r.taskHidden then loadLoop rest m (orphaned ++ [r.id])
    else loadLoop rest
      (mapSet m r.userId { taskId := r.taskId, startTime := r.startTime,
                           socketIds := [] }) orphaned

/-- Function `loadActiveTimers`: returns the in-memory map and the list of orphaned
row ids passed to `deleteMany` (the rows whose task is hidden). -/
def loadActiveTimers (rows : List TimerRow) :
    List (String × ActiveTimer) × List String :=
  loadLoop rows [] []

/-! ## The historical repair pass (`scripts/fix-overlapping-events.ts`) -/

/-- One step body of the repair loop: an event starting before the running
global end is shifted to start at it; either way the global end advances to
the (new) start plus the unchanged duration. -/
def repairLoop : List DurEvent → Int → List DurEvent
  | [], _ => []
  | e :: rest, globalEnd =>
    let newStart := if e.createdAt < globalEnd then globalEnd else e.createdAt
    { e with createdAt := newStart } :: repairLoop rest (newStart + e.duration)

/-- The repair pass of `fix-overlapping-events.ts`: sort by `createdAt`
ascending, then sweep with `globalEndTime` starting at epoch 0. -/
def fixOverlappingEvents (events : List DurEvent) : List DurEvent :=
  repairLoop (events.mergeSort (fun a b => a.createdAt ≤ b.createdAt)) 0

/-! ## Client-supplied timezone handling -/

/-- Timezone selection of `GET /api/stats`:
`searchParams.get("timezone") || "UTC"` — no validation, the raw string is
forwarded (only absence or the falsy empty string defaults to UTC). -/
def statsTimezone (queryTimezone : Option String) : String :=
  match queryTimezone with
  | none => "UTC"
  | some tz => if tz = "" then "UTC" else tz

/-- Timezone selection of `POST /api/chat`:
`const { timezone = "UTC" } = body` — the default applies only when the
field is absent; no validation. -/
def chatTimezone (bodyTimezone : Option String) : String :=
  match bodyTimezone with
  | none => "UTC"
  | some tz => tz

/-- Timezone selection of `POST /api/chat/execute-tool`: starts from
`"UTC"`, and only a truthy client value that passes the
`Intl.DateTimeFormat` probe (modelled by the oracle `validTz`, the
runtime's timezone database) replaces it. -/
def executeToolTimezone (validTz : String → Bool) (bodyTimezone : Option String) :
    String :=
  match bodyTimezone with
  | none => "UTC"
  | some tz => if tz ≠ "" then (if validTz tz then tz else "UTC") else "UTC"

/-! ## The spec's interval predicates -/

/-- The spec's overlap relation on half-open intervals:
`[s1,e1)` and `[s2,e2)` overlap iff `s1 < e2 AND s2 < e1`. -/
def specOverlaps (s₁ e₁ s₂ e₂ : Int) : Prop := s₁ < e₂ ∧ s₂ < e₁

instance (s₁ e₁ s₂ e₂ : Int) : Decidable (specOverlaps s₁ e₁ s₂ e₂) := by
  unfold specOverlaps; infer_instance

/-- Two stored events (from/to schema) overlap. -/
def eventsOverlap (a b : Event) : Prop :=
  specOverlaps a.fromTime a.toTime b.fromTime b.toTime

instance (a b : Event) : Decidable (eventsOverlap a b) := by
  unfold eventsOverlap; infer_instance

/-- Invariant I3 restricted to the stored events: pairwise
non-overlapping. -/
def pairwiseNoOverlap (events : List Event) : Prop :=
  List.Pairwise (fun a b => ¬ eventsOverlap a b) events

/-- The full invariant I3 of the spec: the user's events are pairwise
non-overlapping and none of them overlaps the running timer's interval
`[startTime, now)`. -/
def invariantI3 (events : List Event) (activeTimer : Option RestActiveTimer)
    (now : Int) : Prop :=
  pairwiseNoOverlap events ∧
    match activeTimer with
    | none => True
    | some t => ∀ e ∈ events, ¬ specOverlaps e.fromTime e.toTime t.startTime now

/-- Two duration-schema events overlap (intervals
`[createdAt, createdAt + duration)`). -/
def durEventsOverlap (a b : DurEvent) : Prop :=
  specOverlaps a.createdAt (a.createdAt + a.duration) b.createdAt (b.createdAt + b.duration)

instance (a b : DurEvent) : Decidable (durEventsOverlap a b) := by
  unfold durEventsOverlap; infer_instance

/-! ## Theorems -/

/-- Projection of the in-memory timer to the fields any handler ever
reads (`socketIds` is written on start but never read back). -/
def memView (t : Option ActiveTimer) : Option (String × Int) :=
  t.map (fun a => (a.taskId, a.startTime))

/-- C2 counterexample: with the timer started at 1000 and the (conceptual)
stop instant 5000, a `timer:stop` carrying a client-reported duration of 7
broadcasts `stopped` with exactly 7 — not the server-side elapsed
`5000 - 1000` — and persists no Event (the stored event list stays
empty). -/
theorem timer_stop_echoes_client_duration_cex :
    (timerStop { events := [], dbTimer := some { taskId := "t1", startTime := 1000 },
                 memTimer := some { taskId := "t1", startTime := 1000,
                                    socketIds := ["sockA"] } }
        "u1" "t1" 7 true).2 = [Emit.stopped "user:u1" "t1" 7]
    ∧ (timerStop { events := [], dbTimer := some { taskId := "t1", startTime := 1000 },
                   memTimer := some { taskId := "t1", startTime := 1000,
                                      socketIds := ["sockA"] } }
        "u1" "t1" 7 true).1.events = []
    ∧ (7 : Int) ≠ 5000 - 1000 := by
  refine ⟨rfl, rfl, by decide⟩

/-- C2 amended: on `timer:stop` the server removes the in-memory timer,
removes the durable `ActiveTimer` row when the delete commits (a swallowed
failure leaves the row), broadcasts `stopped{taskId, duration}` to the
user's room echoing the client-reported duration unchanged, and never
writes an Event (the client persists it separately via
`POST /api/events`). -/
theorem timer_stop_behavior (st : SrvState) (u tid : String) (d : Int) (ok : Bool) :
    (timerStop st u tid d ok).1.events = st.events
    ∧ (timerStop st u tid d ok).1.memTimer = none
    ∧ (timerStop st u tid d true).1.dbTimer = none
    ∧ (timerStop st u tid d false).1.dbTimer = st.dbTimer
    ∧ (timerStop st u tid d ok).2 = [Emit.stopped (userRoom u) tid d] := by
  refine ⟨rfl, rfl, rfl, rfl, rfl⟩

/-- C3 counterexample: when the durable delete of `timer:stop` fails
(`dbOk = false`), the durable row survives but the in-memory registry is
still cleared — the in-memory registry is NOT left as it was before the
operation. -/
theorem timer_stop_wal_violation_cex :
    (timerStop { events := [], dbTimer := some { taskId := "t1", startTime := 1000 },
                 memTimer := some { taskId := "t1", startTime := 1000,
                                    socketIds := ["sockA"] } }
        "u1" "t1" 7 false).1.dbTimer = some { taskId := "t1", startTime := 1000 }
    ∧ (timerStop { events := [], dbTimer := some { taskId := "t1", startTime := 1000 },
                   memTimer := some { taskId := "t1", startTime := 1000,
                                      socketIds := ["sockA"] } }
        "u1" "t1" 7 false).1.memTimer
      ≠ some { taskId := "t1", startTime := 1000, socketIds := ["sockA"] } := by
  refine ⟨rfl, by decide⟩

/-- C3 amended: the write-ahead discipline holds for `timer:start` and
`timer:update-start` — a failed durable write leaves the whole state (and
in particular the in-memory registry) unchanged, and on success the
in-memory entry is exactly the projection of the durable write — but
`timer:stop` clears the in-memory entry and broadcasts even when the
durable delete fails, leaving the durable row in place (the deliberate
UI-liveness trade-off). -/
theorem write_ahead_discipline :
    (∀ st u s tid now, (timerStart st u s tid now false).1 = st)
    ∧ (∀ st u s tid ns now, (timerUpdateStart st u s tid ns now false).1 = st)
    ∧ (∀ st u s tid now,
        (timerStart st u s tid now true).1.dbTimer
            = some { taskId := tid, startTime := now }
        ∧ (timerStart st u s tid now true).1.memTimer
            = some { taskId := tid, startTime := now, socketIds := [s] })
    ∧ (∀ st u tid d,
        (timerStop st u tid d false).1.memTimer = none
        ∧ (timerStop st u tid d false).1.dbTimer = st.dbTimer
        ∧ (timerStop st u tid d false).2 = [Emit.stopped (userRoom u) tid d]) := by
  refine ⟨fun st u s tid now => rfl, fun st u s tid ns now => ?_,
    fun st u s tid now => ⟨rfl, rfl⟩, fun st u tid d => ⟨rfl, rfl, rfl⟩⟩
  unfold timerUpdateStart
  cases hm : st.memTimer with
  | none => rfl
  | some timer =>
    by_cases h1 : timer.taskId ≠ tid
    · simp [h1]
    · simp only [h1, if_false, ite_not]
      by_cases h2 : now < ns
      · simp [h2]
      · simp only [h2, if_false]
        cases hf : (st.events.filter (fun e => decide (e.createdAt < now))).find?
            (adjustOverlap ns now) <;> simp [hf]

/-- C10 counterexample: `GET /api/stats` does not validate the
client-supplied timezone — the malformed string "Not/A/Zone" (not an IANA
zone) is used as-is instead of being substituted with UTC. -/
theorem stats_timezone_not_validated_cex :
    statsTimezone (some "Not/A/Zone") = "Not/A/Zone"
    ∧ "Not/A/Zone" ≠ "UTC" := by
  refine ⟨rfl, by decide⟩

/-- C10 amended: only `POST /api/chat/execute-tool` probes the
client-supplied timezone against the runtime's timezone database
(`validTz`) and silently substitutes UTC when the probe fails;
`GET /api/stats` and `POST /api/chat` forward the client string
unvalidated, defaulting to UTC only when the value is absent (or, for
stats, the falsy empty string). -/
theorem timezone_validation_only_in_execute_tool :
    (∀ v : String → Bool, executeToolTimezone v none = "UTC")
    ∧ (∀ (v : String → Bool) tz, v tz = false → executeToolTimezone v (some tz) = "UTC")
    ∧ (∀ (v : String → Bool) tz, v tz = true → tz ≠ "" →
        executeToolTimezone v (some tz) = tz)
    ∧ (∀ tz, tz ≠ "" → statsTimezone (some tz) = tz)
    ∧ (∀ tz, chatTimezone (some tz) = tz)
    ∧ statsTimezone none = "UTC" ∧ chatTimezone none = "UTC" := by
  refine ⟨fun v => rfl, fun v tz hv => ?_, fun v tz hv hne => ?_,
    fun tz hne => ?_, fun tz => rfl, rfl, rfl⟩
  · unfold executeToolTimezone
    by_cases h : tz = "" <;> simp [h, hv]
  · unfold executeToolTimezone
    simp [hne, hv]
  · unfold statsTimezone
    simp [hne]

/-- Witness for `timezone_validation_only_in_execute_tool` at concrete
inputs: a timezone rejected by the database probe is replaced by UTC in
the execute-tool handler, while the stats handler passes a non-empty
string through untouched. -/
theorem timezone_validation_witness :
    executeToolTimezone (fun _ => false) (some "Bogus/Zone") = "UTC"
    ∧ statsTimezone (some "Europe/Prague") = "Europe/Prague" :=
  ⟨timezone_validation_only_in_execute_tool.2.1 (fun _ => false) "Bogus/Zone" rfl,
   timezone_validation_only_in_execute_tool.2.2.2.1 "Europe/Prague" (by decide)⟩

/-- C4: `authenticate {userId}` unconditionally (no credential, token or
session input even exists in its signature) records the claimed user id
and joins the `user:<id>` broadcast group, for every connection state and
every string; and the subsequent mutating timer handlers are keyed purely
by that user id — two sockets claiming the same user id produce identical
durable state, identical stored events, an identical in-memory timer view
(only the never-read `socketIds` bookkeeping differs on start), and the
same broadcast room. -/
theorem authenticate_unconditional_and_user_keyed :
    (∀ conn u, authenticate conn u = ({ userId := some u }, userRoom u))
    ∧ (∀ st u s₁ s₂ tid now ok,
        (timerStart st u s₁ tid now ok).1.dbTimer
            = (timerStart st u s₂ tid now ok).1.dbTimer
        ∧ (timerStart st u s₁ tid now ok).1.events
            = (timerStart st u s₂ tid now ok).1.events
        ∧ memView (timerStart st u s₁ tid now ok).1.memTimer
            = memView (timerStart st u s₂ tid now ok).1.memTimer)
    ∧ (∀ st u s₁ s₂ tid ns now ok,
        (timerUpdateStart st u s₁ tid ns now ok).1
            = (timerUpdateStart st u s₂ tid ns now ok).1)
    ∧ (∀ st u tid d ok,
        (timerStop st u tid d ok).2 = [Emit.stopped (userRoom u) tid d])
    ∧ (∀ st u s tid now,
        (timerStart st u s tid now true).2 = [Emit.started (userRoom u) tid now]) := by
  refine ⟨fun conn u => rfl, fun st u s₁ s₂ tid now ok => ?_,
    fun st u s₁ s₂ tid ns now ok => ?_, fun st u tid d ok => rfl,
    fun st u s tid now => rfl⟩
  · cases ok <;> exact ⟨rfl, rfl, rfl⟩
  · unfold timerUpdateStart
    cases hm : st.memTimer with
    | none => rfl
    | some timer =>
      by_cases h1 : timer.taskId ≠ tid
      · simp [h1]
      · simp only [h1, if_false, ite_not]
        by_cases h2 : now < ns
        · simp [h2]
        · simp only [h2, if_false]
          cases hf : (st.events.filter (fun e => decide (e.createdAt < now))).find?
              (adjustOverlap ns now) <;> cases ok <;> simp [hf]

/-- With no running timer (or with the timer check skipped) the overlap
check is exactly the stored-event filter. -/
theorem findOverlappingEvents_no_timer (evs : List Event) (now f t : Int)
    (excl : Option String) (skip : Bool) :
    findOverlappingEvents evs none now f t excl skip
      = (evs.filter (overlapFilter f t excl)).map Event.toOverlapping := by
  cases skip <;> rfl

/-- The overlap filter only looks at fields preserved by the projection to
the result shape. -/
theorem overlapFilter_congr (f t : Int) (excl : Option String) {a b : Event}
    (h : Event.toOverlapping a = Event.toOverlapping b) :
    overlapFilter f t excl a = overlapFilter f t excl b := by
  have hid : a.id = b.id := congrArg OverlappingEvent.id h
  have hfr : a.fromTime = b.fromTime := congrArg OverlappingEvent.fromTime h
  have hto : a.toTime = b.toTime := congrArg OverlappingEvent.toTime h
  unfold overlapFilter
  rw [hid, hfr, hto]

/-- Propositional reading of the stored-event overlap filter. -/
theorem overlapFilter_iff (f t : Int) (excl : Option String) (e : Event) :
    overlapFilter f t excl e = true ↔
      ((∀ ex, excl = some ex → e.id ≠ ex) ∧ e.fromTime < t ∧ f < e.toTime) := by
  unfold overlapFilter
  cases excl <;> simp [and_assoc]

/-- C6: the overlap check reports a stored event against the candidate
`[f, t)` exactly when `eventStart < t AND f < eventEnd` (with the optional
`excludeEventId` excluded); a boundary-adjacent stored event (its end equal
to the candidate start, or its start equal to the candidate end) is never
reported, and concretely, with `[900, 1200)` stored, creating
`[1200, 1300)` through `POST /api/events` succeeds. -/
theorem overlap_check_reports_iff :
    (∀ evs now f t excl skip (e : Event), e ∈ evs →
      (Event.toOverlapping e ∈ findOverlappingEvents evs none now f t excl skip ↔
        ((∀ ex, excl = some ex → e.id ≠ ex) ∧ e.fromTime < t ∧ f < e.toTime)))
    ∧ (∀ evs now f t excl skip (e : Event), e ∈ evs →
        (e.toTime = f ∨ e.fromTime = t) →
        Event.toOverlapping e ∉ findOverlappingEvents evs none now f t excl skip)
    ∧ postEvent
        [{ id := "e1", taskId := "t1", name := "n", fromTime := 900,
           toTime := 1200, taskName := "Task" }] none ["t1"] "t1" "n2"
        1200 1300 1300 "e2" "Task"
      = (PostResult.created
          { id := "e2", taskId := "t1", name := "n2", fromTime := 1200,
            toTime := 1300, taskName := "Task" },
         [{ id := "e1", taskId := "t1", name := "n", fromTime := 900,
            toTime := 1200, taskName := "Task" },
          { id := "e2", taskId := "t1", name := "n2", fromTime := 1200,
            toTime := 1300, taskName := "Task" }]) := by
  have hmain : ∀ evs now f t excl skip (e : Event), e ∈ evs →
      (Event.toOverlapping e ∈ findOverlappingEvents evs none now f t excl skip ↔
        ((∀ ex, excl = some ex → e.id ≠ ex) ∧ e.fromTime < t ∧ f < e.toTime)) := by
    intro evs now f t excl skip e he
    rw [findOverlappingEvents_no_timer, ← overlapFilter_iff f t excl e]
    constructor
    · intro hmem
      rcases List.mem_map.mp hmem with ⟨a, ha, hae⟩
      rcases List.mem_filter.mp ha with ⟨_, hpa⟩
      rw [overlapFilter_congr f t excl hae] at hpa
      exact hpa
    · intro hp
      exact List.mem_map_of_mem _ (List.mem_filter.mpr ⟨he, hp⟩)
  refine ⟨hmain, ?_, by decide⟩
  intro evs now f t excl skip e he hadj hmem
  rcases (hmain evs now f t excl skip e he).mp hmem with ⟨_, h1, h2⟩
  cases hadj with
  | inl h => rw [h] at h2; exact lt_irrefl _ h2
  | inr h => rw [h] at h1; exact lt_irrefl _ h1

/-- Witness for `overlap_check_reports_iff`: the stored event
`[900, 1200)` is reported against the candidate `[1100, 1300)`. -/
theorem overlap_check_reports_iff_witness :
    Event.toOverlapping
        { id := "e1", taskId := "t1", name := "n", fromTime := 900,
          toTime := 1200, taskName := "Task" }
      ∈ findOverlappingEvents
        [{ id := "e1", taskId := "t1", name := "n", fromTime := 900,
           toTime := 1200, taskName := "Task" }] none 2000 1100 1300 none true :=
  (overlap_check_reports_iff.1 _ 2000 1100 1300 none true _ (by simp)).mpr
    ⟨by simp, by decide, by decide⟩

/-- C7: given an existing task of the user, `POST /api/events` rejects
with a 400 (`invalidInterval` or `futureEnd`) and stores nothing whenever
`to ≤ from` (including the zero-duration interval) or `to` lies strictly
after the current time; and when the interval checks and the overlap check
all pass, exactly one Event with exactly the supplied `from` and `to` is
appended. -/
theorem post_event_interval_validation
    (evs : List Event) (timer : Option RestActiveTimer) (taskIds : List String)
    (tid nm : String) (f t now : Int) (nid tnm : String)
    (htask : tid ∈ taskIds) :
    ((t ≤ f ∨ now < t) →
      (postEvent evs timer taskIds tid nm f t now nid tnm).2 = evs
      ∧ ((postEvent evs timer taskIds tid nm f t now nid tnm).1
            = PostResult.invalidInterval
         ∨ (postEvent evs timer taskIds tid nm f t now nid tnm).1
            = PostResult.futureEnd))
    ∧ (f < t → t ≤ now →
        validateNoOverlap evs timer now f t none true = none →
        postEvent evs timer taskIds tid nm f t now nid tnm
          = (PostResult.created
              { id := nid, taskId := tid, name := nm, fromTime := f,
                toTime := t, taskName := tnm },
             evs ++ [{ id := nid, taskId := tid, name := nm, fromTime := f,
                       toTime := t, taskName := tnm }])) := by
  unfold postEvent
  constructor
  · intro hbad
    by_cases h1 : t ≤ f
    · simp [htask, h1]
    · have h2 : now < t := hbad.resolve_left h1
      simp [htask, h1, h2]
  · intro h1 h2 hval
    have hnle : ¬ t ≤ f := not_le.mpr h1
    have hnlt : ¬ now < t := not_lt.mpr h2
    simp [htask, hnle, hnlt, hval]

/-- Witness for `post_event_interval_validation`: the zero-duration
interval `[5, 5)` is rejected without creating anything. -/
theorem post_event_interval_validation_witness :
    (postEvent [] none ["t1"] "t1" "n" 5 5 10 "e1" "Task").2 = []
    ∧ ((postEvent [] none ["t1"] "t1" "n" 5 5 10 "e1" "Task").1
          = PostResult.invalidInterval
       ∨ (postEvent [] none ["t1"] "t1" "n" 5 5 10 "e1" "Task").1
          = PostResult.futureEnd) :=
  (post_event_interval_validation [] none ["t1"] "t1" "n" 5 5 10 "e1" "Task"
    (by simp)).1 (Or.inl (by decide))

/-- Setting a fresh key on a JS Map appends the binding. -/
theorem mapSet_append (m : List (String × ActiveTimer)) (k : String)
    (v : ActiveTimer) (hk : k ∉ m.map Prod.fst) : mapSet m k v = m ++ [(k, v)] := by
  induction m with
  | nil => rfl
  | cons hd tl ih =>
    obtain ⟨k', v'⟩ := hd
    simp only [List.map_cons, List.mem_cons, not_or] at hk
    unfold mapSet
    rw [if_neg (fun h => hk.1 (h.symm)), ih hk.2]
    rfl

/-- Unfolding of the `loadActiveTimers` loop when the row user ids are
unique and fresh with respect to the accumulated map: non-hidden rows are
appended in order, hidden row ids are collected in order. -/
theorem loadLoop_spec (rows : List TimerRow) :
    ∀ (m : List (String × ActiveTimer)) (o : List String),
    (rows.map TimerRow.userId).Nodup →
    (∀ r ∈ rows, r.userId ∉ m.map Prod.fst) →
    loadLoop rows m o
      = (m ++ (rows.filter (fun r => !r.taskHidden)).map
            (fun r => (r.userId,
              { taskId := r.taskId, startTime := r.startTime,
                socketIds := [] })),
         o ++ (rows.filter (fun r => r.taskHidden)).map TimerRow.id) := by
  induction rows with
  | nil => intro m o _ _; simp [loadLoop]
  | cons r rest ih =>
    intro m o hnd hdisj
    simp only [List.map_cons, List.nodup_cons] at hnd
    have hstep : loadLoop (r :: rest) m o
        = if r.taskHidden then loadLoop rest m (o ++ [r.id])
          else loadLoop rest
            (mapSet m r.userId
              { taskId := r.taskId, startTime := r.startTime, socketIds := [] })
            o := rfl
    by_cases hh : r.taskHidden
    · rw [hstep, if_pos hh,
        ih _ _ hnd.2 (fun r' hr' => hdisj r' (List.mem_cons_of_mem r hr'))]
      simp [hh, List.append_assoc]
    · rw [hstep, if_neg hh,
        mapSet_append m r.userId _ (hdisj r (List.mem_cons_self r rest)),
        ih _ _ hnd.2 ?_]
      · simp [hh, List.append_assoc]
      · intro r' hr'
        simp only [List.map_append, List.mem_append, List.map_cons,
          List.map_nil, List.mem_singleton, not_or]
        refine ⟨hdisj r' (List.mem_cons_of_mem r hr'), fun heq => hnd.1 ?_⟩
        rw [← heq]
        exact List.mem_map_of_mem TimerRow.userId hr'

/-- C8: under the database's uniqueness constraints (unique user id, unique
row id), `loadActiveTimers` loads into memory exactly the durable
`ActiveTimer` rows whose task is not hidden — each with its stored start
instant unmodified — and hands to `deleteMany` exactly the ids of the rows
whose task is hidden, so the surviving durable rows are exactly the
non-hidden ones and none of the deleted ones is in memory. -/
theorem load_active_timers_spec (rows : List TimerRow)
    (hu : (rows.map TimerRow.userId).Nodup)
    (hid : (rows.map TimerRow.id).Nodup) :
    (∀ u t, (u, t) ∈ (loadActiveTimers rows).1 ↔
        ∃ r ∈ rows, r.taskHidden = false ∧ r.userId = u
          ∧ t = { taskId := r.taskId, startTime := r.startTime,
                  socketIds := [] })
    ∧ (loadActiveTimers rows).2
        = (rows.filter (fun r => r.taskHidden)).map TimerRow.id
    ∧ rows.filter (fun r => decide (r.id ∉ (loadActiveTimers rows).2))
        = rows.filter (fun r => !r.taskHidden) := by
  have hLL := loadLoop_spec rows [] [] hu (by simp)
  have h1 : (loadActiveTimers rows).1
      = (rows.filter (fun r => !r.taskHidden)).map
          (fun r => (r.userId,
            { taskId := r.taskId, startTime := r.startTime,
              socketIds := [] })) := by
    unfold loadActiveTimers; rw [hLL]; simp
  have h2 : (loadActiveTimers rows).2
      = (rows.filter (fun r => r.taskHidden)).map TimerRow.id := by
    unfold loadActiveTimers; rw [hLL]; simp
  refine ⟨?_, h2, ?_⟩
  · intro u t
    rw [h1]
    simp only [List.mem_map, List.mem_filter]
    constructor
    · rintro ⟨r, ⟨hr, hrh⟩, heq⟩
      refine ⟨r, hr, by simpa using hrh, congrArg Prod.fst heq,
        (congrArg Prod.snd heq).symm⟩
    · rintro ⟨r, hr, hh, hu', ht⟩
      subst hu'; subst ht
      exact ⟨r, ⟨hr, by simp [hh]⟩, rfl⟩
  · rw [h2]
    apply List.filter_congr
    intro r hr
    by_cases hh : r.taskHidden
    · have hmem : r.id ∈ (rows.filter (fun r => r.taskHidden)).map TimerRow.id :=
        List.mem_map_of_mem _ (List.mem_filter.mpr ⟨hr, by simp [hh]⟩)
      simp [hh, hmem]
    · have hmem : ¬ r.id ∈ (rows.filter (fun r => r.taskHidden)).map TimerRow.id := by
        intro hmem
        rcases List.mem_map.mp hmem with ⟨r', hr', heq⟩
        rcases List.mem_filter.mp hr' with ⟨hr'', hh'⟩
        have hrr : r' = r := List.inj_on_of_nodup_map hid hr'' hr heq
        rw [hrr] at hh'
        simp [hh] at hh'
      simp [hh, hmem]

/-- Witness for `load_active_timers_spec`: of two rows, only the
hidden-task one ("a2") is deleted, and only the visible one is loaded with
its stored start instant. -/
theorem load_active_timers_spec_witness :
    (loadActiveTimers
        [{ id := "a1", userId := "u1", taskId := "t1", startTime := 100,
           taskHidden := false },
         { id := "a2", userId := "u2", taskId := "t2", startTime := 200,
           taskHidden := true }]).2 = ["a2"]
    ∧ (("u1", ({ taskId := "t1", startTime := 100, socketIds := [] } : ActiveTimer))
        ∈ (loadActiveTimers
            [{ id := "a1", userId := "u1", taskId := "t1", startTime := 100,
               taskHidden := false },
             { id := "a2", userId := "u2", taskId := "t2", startTime := 200,
               taskHidden := true }]).1) :=
  ⟨((load_active_timers_spec _ (by decide) (by decide)).2.1).trans (by decide),
   ((load_active_timers_spec _ (by decide) (by decide)).1 "u1" _).mpr
     ⟨{ id := "a1", userId := "u1", taskId := "t1", startTime := 100,
        taskHidden := false }, by simp, rfl, rfl, rfl⟩⟩

/-- The adjust handler's overlap scan finds nothing exactly when no stored
event overlaps the shifted interval `[newStart, now)` in the spec's sense. -/
theorem adjust_find_eq_none_iff (evs : List DurEvent) (ns now : Int) :
    ((evs.filter (fun e => decide (e.createdAt < now))).find?
        (adjustOverlap ns now) = none)
      ↔ ∀ e ∈ evs, ¬ specOverlaps ns now e.createdAt (e.createdAt + e.duration) := by
  rw [List.find?_eq_none]
  constructor
  · intro h e he hov
    have hmem : e ∈ evs.filter (fun e => decide (e.createdAt < now)) :=
      List.mem_filter.mpr ⟨he, by simpa using hov.2⟩
    apply h e hmem
    simp only [adjustOverlap, Bool.and_eq_true, decide_eq_true_eq]
    exact ⟨hov.1, hov.2⟩
  · intro h e he
    rcases List.mem_filter.mp he with ⟨he', _⟩
    simp only [adjustOverlap, Bool.and_eq_true, decide_eq_true_eq, not_and]
    intro h1 h2
    exact h e he' ⟨h1, h2⟩

/-- C5: `timer:update-start` fails — with the state unchanged and a
`timer:error` sent only to the originating socket — when no timer is
running (`NotFound`), when the caller's task id differs from the running
one (`TaskMismatch`), when `newStart > now` (`FutureStart`), when a stored
event overlaps the shifted interval `[newStart, now)` (`OverlapConflict`),
or when the durable update fails; when every check passes and the durable
update commits, the durable start instant and then the in-memory one are
set to `newStart` and `timer:start-updated` is broadcast to the user's
room. -/
theorem adjust_start_spec (st : SrvState) (u s tid : String) (ns now : Int)
    (ok : Bool) :
    (st.memTimer = none →
      timerUpdateStart st u s tid ns now ok
        = (st, [Emit.error s "update-start" "No active timer found to adjust"]))
    ∧ (∀ timer, st.memTimer = some timer → timer.taskId ≠ tid →
        timerUpdateStart st u s tid ns now ok
          = (st, [Emit.error s "update-start" "Timer has changed. Please try again."]))
    ∧ (∀ timer, st.memTimer = some timer → timer.taskId = tid → now < ns →
        timerUpdateStart st u s tid ns now ok
          = (st, [Emit.error s "update-start" "Start time cannot be in the future"]))
    ∧ (∀ timer, st.memTimer = some timer → timer.taskId = tid → ns ≤ now →
        (∃ e ∈ st.events, specOverlaps ns now e.createdAt (e.createdAt + e.duration)) →
        (timerUpdateStart st u s tid ns now ok).1 = st
        ∧ ∃ e ∈ st.events,
            specOverlaps ns now e.createdAt (e.createdAt + e.duration)
            ∧ (timerUpdateStart st u s tid ns now ok).2
                = [Emit.error s "update-start" (adjustOverlapMsg e)])
    ∧ (∀ timer, st.memTimer = some timer → timer.taskId = tid → ns ≤ now →
        (∀ e ∈ st.events, ¬ specOverlaps ns now e.createdAt (e.createdAt + e.duration)) →
        timerUpdateStart st u s tid ns now false
          = (st, [Emit.error s "update-start"
              "Failed to update start time. Please try again."]))
    ∧ (∀ timer, st.memTimer = some timer → timer.taskId = tid → ns ≤ now →
        (∀ e ∈ st.events, ¬ specOverlaps ns now e.createdAt (e.createdAt + e.duration)) →
        timerUpdateStart st u s tid ns now true
          = ({ st with
                dbTimer := st.dbTimer.map (fun d => { d with startTime := ns }),
                memTimer := some { timer with startTime := ns } },
             [Emit.startUpdated (userRoom u) tid ns])) := by
  have hiff := adjust_find_eq_none_iff st.events ns now
  refine ⟨?_, ?_, ?_, ?_, ?_, ?_⟩
  · intro hm; simp [timerUpdateStart, hm]
  · intro timer hm hneq; simp [timerUpdateStart, hm, hneq]
  · intro timer hm heq hfut; simp [timerUpdateStart, hm, heq, hfut]
  · intro timer hm heq hle hex
    cases hf : (st.events.filter (fun e => decide (e.createdAt < now))).find?
        (adjustOverlap ns now) with
    | none =>
      rcases hex with ⟨e, he, hov⟩
      exact absurd hov (hiff.mp hf e he)
    | some e =>
      have hmem := List.mem_of_find?_eq_some hf
      rcases List.mem_filter.mp hmem with ⟨he, _⟩
      have hpred := List.find?_some hf
      have hov : specOverlaps ns now e.createdAt (e.createdAt + e.duration) := by
        simp only [adjustOverlap, Bool.and_eq_true, decide_eq_true_eq] at hpred
        exact ⟨hpred.1, hpred.2⟩
      have heqn : timerUpdateStart st u s tid ns now ok
          = (st, [Emit.error s "update-start" (adjustOverlapMsg e)]) := by
        simp [timerUpdateStart, hm, heq, not_lt.mpr hle, hf]
      exact ⟨by rw [heqn], e, he, hov, by rw [heqn]⟩
  · intro timer hm heq hle hall
    simp [timerUpdateStart, hm, heq, not_lt.mpr hle, hiff.mpr hall]
  · intro timer hm heq hle hall
    simp [timerUpdateStart, hm, heq, not_lt.mpr hle, hiff.mpr hall]

/-- Witness for `adjust_start_spec` at the spec's scenario 4: a timer
running since 14:00 (minute 840), now 14:30 (minute 870), adjusted to
14:10 (minute 850) with no stored events and a committing durable write:
the start instant becomes 850 durably and in memory, and
`timer:start-updated` is broadcast. -/
theorem adjust_start_spec_witness :
    timerUpdateStart
        { events := [], dbTimer := some { taskId := "t1", startTime := 840 },
          memTimer := some { taskId := "t1", startTime := 840,
                             socketIds := ["sockA"] } }
        "u1" "sockA" "t1" 850 870 true
      = ({ events := [], dbTimer := some { taskId := "t1", startTime := 850 },
           memTimer := some { taskId := "t1", startTime := 850,
                              socketIds := ["sockA"] } },
         [Emit.startUpdated "user:u1" "t1" 850]) :=
  ((adjust_start_spec
      { events := [], dbTimer := some { taskId := "t1", startTime := 840 },
        memTimer := some { taskId := "t1", startTime := 840,
                           socketIds := ["sockA"] } }
      "u1" "sockA" "t1" 850 870 true).2.2.2.2.2
    { taskId := "t1", startTime := 840, socketIds := ["sockA"] }
    rfl rfl (by decide) (by intro e he hov; simp at he)).trans rfl

/-- One unfolding step of the repair loop. -/
theorem repairLoop_cons (e : DurEvent) (rest : List DurEvent) (G : Int) :
    repairLoop (e :: rest) G
      = { e with createdAt := if e.createdAt < G then G else e.createdAt }
          :: repairLoop rest
              ((if e.createdAt < G then G else e.createdAt) + e.duration) := rfl

/-- Every event emitted by the repair loop starts no earlier than the
incoming global end. -/
theorem repairLoop_lb (evs : List DurEvent) :
    ∀ G, (∀ e ∈ evs, 0 ≤ e.duration) →
      ∀ x ∈ repairLoop evs G, G ≤ x.createdAt := by
  induction evs with
  | nil => intro G _ x hx; simp [repairLoop] at hx
  | cons e rest ih =>
    intro G hd x hx
    rw [repairLoop_cons] at hx
    have hns : G ≤ if e.createdAt < G then G else e.createdAt := by
      by_cases h : e.createdAt < G
      · simp [h]
      · simp [h, not_lt.mp h]
    rcases List.mem_cons.mp hx with hx | hx
    · rw [hx]; exact hns
    · have htail := ih _ (fun e' he' => hd e' (List.mem_cons_of_mem e he')) x hx
      have hdur : 0 ≤ e.duration := hd e (List.mem_cons_self e rest)
      omega

/-- The repair loop's output is pairwise non-overlapping (given
non-negative durations). -/
theorem repairLoop_pairwise (evs : List DurEvent) :
    ∀ G, (∀ e ∈ evs, 0 ≤ e.duration) →
      List.Pairwise (fun a b => ¬ durEventsOverlap a b) (repairLoop evs G) := by
  induction evs with
  | nil => intro G _; simp [repairLoop]
  | cons e rest ih =>
    intro G hd
    rw [repairLoop_cons]
    refine List.Pairwise.cons ?_
      (ih _ (fun e' he' => hd e' (List.mem_cons_of_mem e he')))
    intro y hy hov
    have hub := repairLoop_lb rest _
      (fun e' he' => hd e' (List.mem_cons_of_mem e he')) y hy
    rcases hov with ⟨_, h2⟩
    simp only at h2
    omega

/-- The repair loop touches only `createdAt`: ids, task ids and durations
are preserved in order. -/
theorem repairLoop_fields (evs : List DurEvent) :
    ∀ G, (repairLoop evs G).map (fun e => (e.id, e.taskId, e.duration))
      = evs.map (fun e => (e.id, e.taskId, e.duration)) := by
  induction evs with
  | nil => intro G; rfl
  | cons e rest ih => intro G; rw [repairLoop_cons]; simp [ih]

/-- The repair loop preserves each task's total duration. -/
theorem repairLoop_task_sum (evs : List DurEvent) :
    ∀ G tid,
      (((repairLoop evs G).filter (fun e => e.taskId == tid)).map
          (fun e => e.duration)).sum
        = ((evs.filter (fun e => e.taskId == tid)).map (fun e => e.duration)).sum := by
  induction evs with
  | nil => intro G tid; rfl
  | cons e rest ih =>
    intro G tid
    rw [repairLoop_cons]
    by_cases h : e.taskId == tid <;>
      simp [List.filter_cons, h, ih]

/-- C9: the historical repair pass produces pairwise non-overlapping
intervals, preserves every event's id, task and duration (as a
permutation of the input), and therefore conserves every task's total
duration. -/
theorem repair_pass_spec (evs : List DurEvent)
    (hd : ∀ e ∈ evs, 0 ≤ e.duration) :
    List.Pairwise (fun a b => ¬ durEventsOverlap a b) (fixOverlappingEvents evs)
    ∧ List.Perm
        ((fixOverlappingEvents evs).map (fun e => (e.id, e.taskId, e.duration)))
        (evs.map (fun e => (e.id, e.taskId, e.duration)))
    ∧ ∀ tid,
        (((fixOverlappingEvents evs).filter (fun e => e.taskId == tid)).map
            (fun e => e.duration)).sum
          = ((evs.filter (fun e => e.taskId == tid)).map (fun e => e.duration)).sum := by
  have hperm : List.Perm
      (evs.mergeSort (fun a b => a.createdAt ≤ b.createdAt)) evs :=
    List.mergeSort_perm evs _
  have hd' : ∀ e ∈ evs.mergeSort (fun a b => a.createdAt ≤ b.createdAt),
      0 ≤ e.duration := fun e he => hd e (hperm.mem_iff.mp he)
  refine ⟨repairLoop_pairwise _ 0 hd', ?_, ?_⟩
  · rw [fixOverlappingEvents, repairLoop_fields]
    exact hperm.map _
  · intro tid
    rw [fixOverlappingEvents, repairLoop_task_sum]
    exact List.Perm.sum_eq ((hperm.filter _).map _)

/-- Witness for `repair_pass_spec`: two overlapping events `[0,100)` and
`[50,150)` are repaired into a non-overlapping sequence with the per-task
totals intact. -/
theorem repair_pass_spec_witness :
    List.Pairwise (fun a b => ¬ durEventsOverlap a b)
      (fixOverlappingEvents
        [{ id := "e1", taskId := "t1", name := "n1", createdAt := 0,
           duration := 100, taskName := "T" },
         { id := "e2", taskId := "t2", name := "n2", createdAt := 50,
           duration := 100, taskName := "T" }])
    ∧ (((fixOverlappingEvents
          [{ id := "e1", taskId := "t1", name := "n1", createdAt := 0,
             duration := 100, taskName := "T" },
           { id := "e2", taskId := "t2", name := "n2", createdAt := 50,
             duration := 100, taskName := "T" }]).filter
            (fun e => e.taskId == "t1")).map (fun e => e.duration)).sum
        = ((([{ id := "e1", taskId := "t1", name := "n1", createdAt := 0,
                duration := 100, taskName := "T" },
              { id := "e2", taskId := "t2", name := "n2", createdAt := 50,
                duration := 100, taskName := "T" }] : List DurEvent).filter
              (fun e => e.taskId == "t1")).map (fun e => e.duration)).sum :=
  ⟨(repair_pass_spec _ (by decide)).1, (repair_pass_spec _ (by decide)).2.2 "t1"⟩

/-- C1 counterexample: with no stored events, a timer running since 1000,
and now = 2000, `POST /api/events` accepts the event `[1200, 1800)` —
its overlap check runs with `skipRunningTimerCheck: true` — producing a
stored state in which the new event overlaps the running timer, so the
claimed invariant (events PLUS the running timer pairwise
non-overlapping) is not preserved by the REST create entry point. -/
theorem rest_create_violates_I3_cex :
    postEvent [] (some { id := "at1", startTime := 1000, taskName := "Task" })
        ["t1"] "t1" "n" 1200 1800 2000 "e1" "Task"
      = (PostResult.created
          { id := "e1", taskId := "t1", name := "n", fromTime := 1200,
            toTime := 1800, taskName := "Task" },
         [{ id := "e1", taskId := "t1", name := "n", fromTime := 1200,
            toTime := 1800, taskName := "Task" }])
    ∧ invariantI3 []
        (some { id := "at1", startTime := 1000, taskName := "Task" }) 2000
    ∧ ¬ invariantI3
        [{ id := "e1", taskId := "t1", name := "n", fromTime := 1200,
           toTime := 1800, taskName := "Task" }]
        (some { id := "at1", startTime := 1000, taskName := "Task" }) 2000 := by
  refine ⟨by decide, ⟨List.Pairwise.nil, ?_⟩, ?_⟩
  · intro e he
    simp at he
  · rintro ⟨_, h⟩
    have := h { id := "e1", taskId := "t1", name := "n", fromTime := 1200,
                toTime := 1800, taskName := "Task" } (by simp)
    exact this (by decide)

/-- An empty overlap result means every stored event fails the overlap
filter (whatever the timer branch did). -/
theorem overlap_empty_filter_false (evs : List Event)
    (timer : Option RestActiveTimer) (now f t : Int) (excl : Option String)
    (skip : Bool) (h : findOverlappingEvents evs timer now f t excl skip = []) :
    ∀ e ∈ evs, overlapFilter f t excl e = false := by
  have hbase : (evs.filter (overlapFilter f t excl)).map Event.toOverlapping = [] := by
    unfold findOverlappingEvents at h
    cases skip with
    | true => simpa using h
    | false =>
      cases timer with
      | none => simpa using h
      | some tt =>
        by_cases hc : tt.startTime < t ∧ f < now
        · simp only [hc, if_true, Bool.false_eq_true, if_false] at h
          exact absurd h (by simp)
        · simp only [hc, if_false, Bool.false_eq_true] at h
          simpa using h
  have hnil : evs.filter (overlapFilter f t excl) = [] :=
    List.map_eq_nil_iff.mp hbase
  intro e he
  by_contra hne
  have hmem : e ∈ evs.filter (overlapFilter f t excl) :=
    List.mem_filter.mpr ⟨he, by simpa using hne⟩
  rw [hnil] at hmem
  simp at hmem

/-- A passing `validateNoOverlap` call means every stored event fails the
overlap filter. -/
theorem validate_none_filter_false (evs : List Event)
    (timer : Option RestActiveTimer) (now f t : Int) (excl : Option String)
    (skip : Bool) (h : validateNoOverlap evs timer now f t excl skip = none) :
    ∀ e ∈ evs, overlapFilter f t excl e = false :=
  overlap_empty_filter_false evs timer now f t excl skip
    (List.head?_eq_none_iff.mp h)

/-- With no exclusion, a false overlap filter is exactly non-overlap with
the candidate interval. -/
theorem overlapFilter_false_no_excl (f t : Int) (e : Event)
    (h : overlapFilter f t none e = false) :
    ¬ (e.fromTime < t ∧ f < e.toTime) := by
  intro hc
  have htrue : overlapFilter f t none e = true := by
    simp [overlapFilter, hc.1, hc.2]
  rw [h] at htrue
  exact Bool.false_ne_true htrue

/-- With an exclusion id, a false overlap filter on a non-excluded event
is exactly non-overlap with the candidate interval. -/
theorem overlapFilter_false_excl (f t : Int) (i : String) (e : Event)
    (hne : e.id ≠ i) (h : overlapFilter f t (some i) e = false) :
    ¬ (e.fromTime < t ∧ f < e.toTime) := by
  intro hc
  have htrue : overlapFilter f t (some i) e = true := by
    simp [overlapFilter, hne, hc.1, hc.2]
  rw [h] at htrue
  exact Bool.false_ne_true htrue

/-- Pairwise non-overlap is preserved by any per-element rewrite that
keeps every interval. -/
theorem pairwise_map_interval_preserving (l : List Event) (g : Event → Event)
    (hg : ∀ e ∈ l, (g e).fromTime = e.fromTime ∧ (g e).toTime = e.toTime)
    (h : pairwiseNoOverlap l) : pairwiseNoOverlap (l.map g) := by
  unfold pairwiseNoOverlap at h ⊢
  induction l with
  | nil => simp
  | cons x xs ih =>
    rcases List.pairwise_cons.mp h with ⟨hx, hxs⟩
    simp only [List.map_cons]
    refine List.Pairwise.cons ?_
      (ih (fun e he => hg e (List.mem_cons_of_mem x he)) hxs)
    intro y hy
    rcases List.mem_map.mp hy with ⟨b, hb, rfl⟩
    have hgx := hg x (List.mem_cons_self x xs)
    have hgb := hg b (List.mem_cons_of_mem x hb)
    intro hov
    apply hx b hb
    have hov' : (g x).fromTime < (g b).toTime ∧ (g b).fromTime < (g x).toTime := hov
    rw [hgx.1, hgx.2, hgb.1, hgb.2] at hov'
    exact hov'

/-- Replacing the unique event with a given id by a replacement that
overlaps none of the other events preserves pairwise non-overlap. -/
theorem pairwise_update_unique (l : List Event) (i : String) (e' : Event)
    (hnd : (l.map Event.id).Nodup)
    (hcompat : ∀ a ∈ l, a.id ≠ i → ¬ eventsOverlap a e' ∧ ¬ eventsOverlap e' a)
    (h : pairwiseNoOverlap l) :
    pairwiseNoOverlap (l.map (fun e => if e.id = i then e' else e)) := by
  unfold pairwiseNoOverlap at h ⊢
  induction l with
  | nil => exact List.Pairwise.nil
  | cons x xs ih =>
    simp only [List.map_cons, List.nodup_cons] at hnd
    rcases List.pairwise_cons.mp h with ⟨hx, hxs⟩
    simp only [List.map_cons]
    refine List.Pairwise.cons ?_
      (ih hnd.2 (fun a ha hai => hcompat a (List.mem_cons_of_mem x ha) hai) hxs)
    intro y hy
    rcases List.mem_map.mp hy with ⟨b, hb, rfl⟩
    by_cases hxi : x.id = i
    · rw [if_pos hxi]
      have hbi : b.id ≠ i := by
        intro hbid
        have hbmem : b.id ∈ xs.map Event.id := List.mem_map_of_mem Event.id hb
        rw [hbid, ← hxi] at hbmem
        exact hnd.1 hbmem
      rw [if_neg hbi]
      exact (hcompat b (List.mem_cons_of_mem x hb) hbi).2
    · rw [if_neg hxi]
      by_cases hbi : b.id = i
      · rw [if_pos hbi]
        exact (hcompat x (List.mem_cons_self x xs) hxi).1
      · rw [if_neg hbi]
        exact hx b hb

/-- Case analysis of the `POST /api/events` stored-event effect: either
nothing changes, or the overlap check passed and exactly the new row was
appended. -/
theorem postEvent_snd (evs : List Event) (timer : Option RestActiveTimer)
    (taskIds : List String) (tid nm : String) (f t now : Int)
    (nid tnm : String) :
    (postEvent evs timer taskIds tid nm f t now nid tnm).2 = evs
    ∨ (validateNoOverlap evs timer now f t none true = none
       ∧ (postEvent evs timer taskIds tid nm f t now nid tnm).2
           = evs ++ [{ id := nid, taskId := tid, name := nm, fromTime := f,
                       toTime := t, taskName := tnm }]) := by
  unfold postEvent
  by_cases h1 : tid ∈ taskIds
  · simp only [h1, not_true, if_false]
    by_cases h2 : t ≤ f
    · simp [h2]
    · simp only [h2, if_false]
      by_cases h3 : now < t
      · simp [h3]
      · simp only [h3, if_false]
        cases hval : validateNoOverlap evs timer now f t none true with
        | some e => simp [hval]
        | none => simp [hval]
  · simp [h1]

/-- Case analysis of the `PUT /api/events/[id]` stored-event effect:
either nothing changes, or every row with the target id is rewritten by
`applyUpdate` and either only the name was supplied or the overlap check
(excluding the event itself) passed on the final interval. -/
theorem putEvent_snd (evs : List Event) (timer : Option RestActiveTimer)
    (i : String) (nn : Option String) (nf nt : Option Int) (now : Int) :
    (putEvent evs timer i nn nf nt now).2 = evs
    ∨ ((putEvent evs timer i nn nf nt now).2
         = evs.map (fun e => if e.id = i then applyUpdate nn nf nt e else e)
       ∧ ((nf = none ∧ nt = none)
          ∨ ∃ event, evs.find? (fun e => e.id = i) = some event
              ∧ validateNoOverlap evs timer now (nf.getD event.fromTime)
                  (nt.getD event.toTime) (some i) false = none)) := by
  unfold putEvent
  cases hfind : evs.find? (fun e => e.id = i) with
  | none => simp [hfind]
  | some event =>
    simp only [hfind]
    by_cases hsome : nf.isSome ∨ nt.isSome
    · simp only [hsome, if_true]
      by_cases h2 : nt.getD event.toTime ≤ nf.getD event.fromTime
      · simp [h2]
      · simp only [h2, if_false]
        by_cases h3 : now < nt.getD event.toTime
        · simp [h3]
        · simp only [h3, if_false]
          cases hval : validateNoOverlap evs timer now (nf.getD event.fromTime)
              (nt.getD event.toTime) (some i) false with
          | some e => simp [hval]
          | none =>
            simp only [hval]
            exact Or.inr ⟨trivial, Or.inr ⟨event, rfl, hval⟩⟩
    · simp only [hsome, if_false]
      rcases not_or.mp hsome with ⟨hnf, hnt⟩
      exact Or.inr ⟨trivial, Or.inl ⟨Option.not_isSome_iff_eq_none.mp hnf,
        Option.not_isSome_iff_eq_none.mp hnt⟩⟩

/-- C1 amended: both event entry points preserve pairwise non-overlap of
the user's STORED events (invariant I3 restricted to events): `POST`
appends only candidates that pass the overlap check against every stored
event, and `PUT` (under the database's unique-id constraint) rewrites only
the addressed event after re-validating its final interval against all
others.  (The running timer is deliberately excluded from the `POST`
check, see `rest_create_violates_I3_cex`.) -/
theorem events_pairwise_no_overlap_preserved :
    (∀ evs timer taskIds tid nm f t now nid tnm,
       pairwiseNoOverlap evs →
       pairwiseNoOverlap (postEvent evs timer taskIds tid nm f t now nid tnm).2)
    ∧ (∀ evs timer i nn nf nt now,
        (evs.map Event.id).Nodup → pairwiseNoOverlap evs →
        pairwiseNoOverlap (putEvent evs timer i nn nf nt now).2) := by
  constructor
  · intro evs timer taskIds tid nm f t now nid tnm hp
    rcases postEvent_snd evs timer taskIds tid nm f t now nid tnm with h | ⟨hval, h⟩
    · rw [h]; exact hp
    · rw [h]
      unfold pairwiseNoOverlap at hp ⊢
      rw [List.pairwise_append]
      refine ⟨hp, List.pairwise_singleton _ _, ?_⟩
      intro a ha b hb
      rcases List.mem_singleton.mp hb with rfl
      have hfalse := validate_none_filter_false evs timer now f t none true hval a ha
      have hno := overlapFilter_false_no_excl f t a hfalse
      intro hov
      exact hno hov
  · intro evs timer i nn nf nt now hnd hp
    rcases putEvent_snd evs timer i nn nf nt now with h | ⟨h, hcase⟩
    · rw [h]; exact hp
    · rw [h]
      rcases hcase with ⟨hnf, hnt⟩ | ⟨event, hfind, hval⟩
      · subst hnf; subst hnt
        apply pairwise_map_interval_preserving evs _ ?_ hp
        intro e he
        by_cases hei : e.id = i <;> simp [hei, applyUpdate]
      · have hevid : event.id = i := by simpa using List.find?_some hfind
        have hevmem : event ∈ evs := List.mem_of_find?_eq_some hfind
        have hmapcongr : evs.map (fun e => if e.id = i then applyUpdate nn nf nt e else e)
            = evs.map (fun e => if e.id = i then applyUpdate nn nf nt event else e) := by
          apply List.map_congr_left
          intro a ha
          by_cases hai : a.id = i
          · have haev : a = event :=
              List.inj_on_of_nodup_map hnd ha hevmem (by rw [hai, hevid])
            rw [haev]
          · simp [hai]
        rw [hmapcongr]
        apply pairwise_update_unique evs i (applyUpdate nn nf nt event) hnd ?_ hp
        intro a ha hai
        have hfa := validate_none_filter_false evs timer now
          (nf.getD event.fromTime) (nt.getD event.toTime) (some i) false hval a ha
        have hno := overlapFilter_false_excl _ _ i a hai hfa
        constructor
        · intro hov
          exact hno ⟨hov.1, hov.2⟩
        · intro hov
          exact hno ⟨hov.2, hov.1⟩

/-- Witness for `events_pairwise_no_overlap_preserved`: creating
`[0, 10)` into an empty store (at now = 10) leaves a pairwise
non-overlapping store, as does a name-only update against a singleton
store. -/
theorem events_pairwise_no_overlap_preserved_witness :
    pairwiseNoOverlap (postEvent [] none ["t1"] "t1" "n" 0 10 10 "e1" "T").2
    ∧ pairwiseNoOverlap
        (putEvent
          [{ id := "e1", taskId := "t1", name := "n", fromTime := 0,
             toTime := 10, taskName := "T" }] none "e1" (some "renamed")
          none none 10).2 :=
  ⟨events_pairwise_no_overlap_preserved.1 [] none ["t1"] "t1" "n" 0 10 10 "e1" "T"
     List.Pairwise.nil,
   events_pairwise_no_overlap_preserved.2
     [{ id := "e1", taskId := "t1", name := "n", fromTime := 0,
        toTime := 10, taskName := "T" }] none "e1" (some "renamed") none none 10
     (by simp) (List.pairwise_singleton _ _)⟩
